import Mathlib

/-!
Shallow embedding of the GCE rate limiter package
(`pkg/ratelimit/ratelimit.go`): the spec-string parser
(`NewGCERateLimiter`, `constructRateLimitKey`, `constructRateLimitImpl`),
the key-indexed registry map, and the cancellable `Accept` operation,
together with proofs of the behavioural claims about them.

Go library primitives used by the source (`strings.Split`,
`strconv.ParseFloat`, `strconv.Atoi`, the `flowcontrol` token-bucket
constructor, goroutines, channels and `select`) are modelled explicitly
below; each model notes its intended fidelity.
-/

set_option autoImplicit false
set_option maxRecDepth 40000

/-- Model of Go `strings.Split` restricted to a single-character separator
(the source only splits on "," and "."), working on the character list of
the string.  `goSplit sep s` always returns a non-empty list; splitting the
empty string yields `[[]]`, as in Go. -/
def goSplit (sep : Char) : List Char → List (List Char)
  | [] => [[]]
  | c :: rest =>
    match goSplit sep rest with
    | [] => [[c]]
    | h :: t => if c = sep then [] :: h :: t else (c :: h) :: t

/-- `strings.Split` wrapper producing `String` fields. -/
def strSplit (sep : Char) (s : String) : List String :=
  (goSplit sep s.data).map fun cs => ⟨cs⟩

/-- Value of a list of decimal digit characters, most significant first. -/
def digitsVal (ds : List Char) : ℕ :=
  ds.foldl (fun a c => a * 10 + (c.toNat - 48)) 0

/-- All characters are decimal digits. -/
def allDigits (ds : List Char) : Bool :=
  ds.all Char.isDigit

/-- Read an optional leading sign; returns (negative?, remaining chars). -/
def readSign : List Char → Bool × List Char
  | '+' :: r => (false, r)
  | '-' :: r => (true, r)
  | cs => (false, cs)

/-- Decimal mantissa of a float literal: digits with at most one dot and at
least one digit in total ("123", "1.5", "5.", ".5" are valid; "", ".",
"1.5.5" are not), as in Go's `strconv.ParseFloat` grammar.  Returns the
digit value together with the number of fractional digits, so the mantissa
denotes `value / 10 ^ fracLen`. -/
def parseMantissa (cs : List Char) : Option (ℕ × ℕ) :=
  match goSplit '.' cs with
  | [ip] =>
    if ip ≠ [] ∧ allDigits ip then some (digitsVal ip, 0) else none
  | [ip, fp] =>
    if (ip ≠ [] ∨ fp ≠ []) ∧ allDigits ip ∧ allDigits fp then
      some (digitsVal ip * 10 ^ fp.length + digitsVal fp, fp.length)
    else none
  | _ => none

/-- The values Go `strconv.ParseFloat(s, 32)` can return with a nil
error: a finite float32 (held as its exact rational value), an infinity,
or NaN.  (For bitSize 32 the returned float64 is exactly the float32
value, and the later `float32(qps)` conversion in the source is the
identity on it.) -/
inductive GoFloat where
  | finite (val : ℚ)
  | inf (neg : Bool)
  | nan
deriving DecidableEq

/-- Decide `2 ^ e ≤ a / b` for naturals `a b` (with `b > 0`) and an
integer exponent `e`. -/
def pow2le (a b : ℕ) (e : ℤ) : Bool :=
  if 0 ≤ e then decide (b * 2 ^ e.toNat ≤ a) else decide (b ≤ a * 2 ^ (-e).toNat)

/-- Largest exponent `e` in `[-126, 127]` with `2 ^ e ≤ a / b`, if any:
the binary exponent of a normal float32 candidate.  The counter starts at
254; counter value `n + 1` tests `e = n - 126`. -/
def floatExpAux (a b : ℕ) : ℕ → Option ℤ
  | 0 => none
  | n + 1 =>
    let e : ℤ := (n : ℤ) - 126
    if pow2le a b e then some e else floatExpAux a b n

/-- Round the fraction `a / b` (with `b > 0`) to the nearest integer,
ties to even: IEEE 754 unbiased rounding, as `strconv.ParseFloat` uses. -/
def roundHalfEven (a b : ℕ) : ℕ :=
  let d := a / b
  let r := a % b
  if 2 * r < b then d
  else if b < 2 * r then d + 1
  else if d % 2 = 0 then d else d + 1

/-- Round the positive rational `a / b` to float32 precision: produce the
mantissa/scale pair `(m, s)` of the nearest float32 (value `m * 2 ^ s`,
ties to even; `s = -149` in the subnormal range, so values below half the
smallest subnormal round to zero with no error, as in Go), or `none` when
the value rounds above the largest finite float32 — Go's `ErrRange`
overflow, a non-nil error. -/
def roundFloat32Pos (a b : ℕ) : Option (ℕ × ℤ) :=
  let s : ℤ :=
    match floatExpAux a b 254 with
    | some e => e - 23
    | none => -149
  let A := a * 2 ^ (-s).toNat
  let B := b * 2 ^ s.toNat
  let m := roundHalfEven A B
  if (2 ^ 24 - 1) * 2 ^ (104 - s).toNat < m then none else some (m, s)

/-- The rational value of the signed float32 with mantissa `m` and binary
scale `s`. -/
def floatVal (neg : Bool) (m : ℕ) (s : ℤ) : ℚ :=
  let n : ℤ := if neg then -(m : ℤ) else (m : ℤ)
  if 0 ≤ s then mkRat (n * 2 ^ s.toNat) 1 else mkRat n (2 ^ (-s).toNat)

/-- Round the decimal literal `±(m / 10 ^ f) * 10 ^ ±e` to float32:
the parse result of a syntactically valid decimal rate string. -/
def roundDecimal32 (neg : Bool) (m f : ℕ) (eneg : Bool) (e : ℕ) : Option GoFloat :=
  let a := if eneg then m else m * 10 ^ e
  let b := if eneg then 10 ^ (f + e) else 10 ^ f
  if a = 0 then some (.finite 0)
  else
    match roundFloat32Pos a b with
    | none => none
    | some ms => some (.finite (floatVal neg ms.1 ms.2))

/-- Model of Go `strconv.ParseFloat(s, 32)`: the special case-insensitive
forms "nan" and (optionally signed) "inf"/"infinity" parse with a nil
error; otherwise the decimal grammar — optional sign, decimal mantissa,
optional case-insensitive exponent — is rounded to the nearest float32
(ties to even), with overflow beyond the largest finite float32 returning
`ErrRange` (`none`; Go's caller only checks `err != nil`) and underflow
rounding to zero with a nil error.  Hex floats and digit-group
underscores are not modelled. -/
def ParseFloat32 (s : String) : Option GoFloat :=
  let low := s.data.map Char.toLower
  if low = ['n', 'a', 'n'] then some GoFloat.nan
  else
    match readSign low with
    | (neg, cs) =>
      if cs = ['i', 'n', 'f'] ∨ cs = ['i', 'n', 'f', 'i', 'n', 'i', 't', 'y'] then
        some (GoFloat.inf neg)
      else
        match goSplit 'e' cs with
        | [m] =>
          match parseMantissa m with
          | some mf => roundDecimal32 neg mf.1 mf.2 false 0
          | none => none
        | [m, ex] =>
          match parseMantissa m, readSign ex with
          | some mf, (eneg, eds) =>
            if eds ≠ [] ∧ allDigits eds then
              roundDecimal32 neg mf.1 mf.2 eneg (digitsVal eds)
            else none
          | none, _ => none
        | _ => none

/-- Go's `qps <= 0` on the parsed value: false for NaN (IEEE comparisons
with NaN are false) and for +Inf; true for -Inf and non-positive finite
values. -/
def goFloatLe0 : GoFloat → Bool
  | .finite q => decide (q ≤ 0)
  | .inf neg => neg
  | .nan => false

/-- "Strictly greater than zero", the spec's acceptance condition for the
rate (used to state claim C5): false for NaN and for every non-positive
value. -/
def goFloatGt0 : GoFloat → Bool
  | .finite q => decide (0 < q)
  | .inf neg => !neg
  | .nan => false

/-- Model of Go `strconv.Atoi`: optional sign, non-empty decimal digits,
value within the 64-bit `int` range (out-of-range input is an `ErrRange`
error, hence `none`). -/
def Atoi (s : String) : Option ℤ :=
  match readSign s.data with
  | (neg, ds) =>
    if ds ≠ [] ∧ allDigits ds then
      let v : ℤ := if neg then -(digitsVal ds : ℤ) else (digitsVal ds : ℤ)
      if -(2 ^ 63) ≤ v ∧ v < 2 ^ 63 then some v else none
    else none

/-- `cloud.RateLimitKey`: identifies a class of operations to rate-limit.
Field order follows the struct literal in `rateLimitImpl`. -/
structure RateLimitKey where
  ProjectID : String
  Operation : String
  Version : String
  Service : String
deriving DecidableEq

/-- Model of a `flowcontrol.RateLimiter` token-bucket instance: only its
construction parameters are relevant to the claims (its internal bucket
state is abstracted by the `bucketEmpty` parameter of `Accept` below). -/
structure FCRateLimiter where
  qps : GoFloat
  burst : ℤ
deriving DecidableEq

/-- Model of `flowcontrol.NewTokenBucketRateLimiter(float32(qps), burst)`;
the `float32` conversion is the identity on the already float32-rounded
parse result. -/
def NewTokenBucketRateLimiter (qps : GoFloat) (burst : ℤ) : FCRateLimiter :=
  ⟨qps, burst⟩

/-- The registry's `map[cloud.RateLimitKey]flowcontrol.RateLimiter`,
modelled as an association list with at most one binding per key. -/
abbrev RLMap := List (RateLimitKey × FCRateLimiter)

/-- Go map read `m[k]`: `none` models the zero-value (nil) result on a
miss. -/
def mapLookup : RLMap → RateLimitKey → Option FCRateLimiter
  | [], _ => none
  | (k0, v0) :: rest, k => if k0 = k then some v0 else mapLookup rest k

/-- Go map write `m[k] = v`: replaces an existing binding for `k`, else
appends one. -/
def mapInsert : RLMap → RateLimitKey → FCRateLimiter → RLMap
  | [], k, v => [(k, v)]
  | (k0, v0) :: rest, k, v =>
    if k0 = k then (k, v) :: rest else (k0, v0) :: mapInsert rest k v

/-- The keys bound in a map. -/
def mapKeys (m : RLMap) : List RateLimitKey :=
  m.map Prod.fst

/-- `constructRateLimitKey`: the key part must split on "." into exactly
three fields; `ProjectID` is left empty. -/
def constructRateLimitKey (param : String) : Except String RateLimitKey :=
  match strSplit '.' param with
  | [version, service, operation] =>
    .ok { ProjectID := "", Operation := operation, Version := version, Service := service }
  | _ =>
    .error ("Must specify rate limit in [version].[service].[operation] format: " ++ param)

/-- `constructRateLimitImpl`: `params` is the comma fields after the key
(type tag first).  Only type "qps" is recognised; it requires exactly two
further arguments: a float rate that must be strictly positive, and an
integer burst (checked only for integrality, not positivity).  The `[]`
case is unreachable from `NewGCERateLimiter`, which guarantees at least
one field here (in Go, `params[0]` on an empty slice would panic). -/
def constructRateLimitImpl (params : List String) : Except String FCRateLimiter :=
  match params with
  | [] => .error "unreachable: caller guarantees at least one parameter"
  | rlType :: implArgs =>
    if rlType = "qps" then
      match implArgs with
      | [a0, a1] =>
        match ParseFloat32 a0 with
        | some qps =>
          if goFloatLe0 qps then
            .error ("Invalid argument for rate limiter type qps. Either " ++ a0 ++
              " is not a float or not greater than 0.")
          else
            match Atoi a1 with
            | some burst => .ok (NewTokenBucketRateLimiter qps burst)
            | none =>
              .error ("Invalid argument for rate limiter type qps. Expected " ++ a1 ++
                " to be a int.")
        | none =>
          .error ("Invalid argument for rate limiter type qps. Either " ++ a0 ++
            " is not a float or not greater than 0.")
      | _ =>
        .error ("Invalid number of args for rate limiter type qps. Expected 2, Got " ++
          toString implArgs.length)
    else
      .error ("Invalid rate limiter type provided: " ++ rlType)

/-- One iteration of the `NewGCERateLimiter` loop body on a single spec
string: split on ",", require at least two fields, build the key from the
first field and the limiter from the rest, in that order (so a bad key is
reported before a bad limiter spec, as in the source). -/
def parseSpec (spec : String) : Except String (RateLimitKey × FCRateLimiter) :=
  match strSplit ',' spec with
  | p0 :: p1 :: rest =>
    match constructRateLimitKey p0 with
    | .error e => .error e
    | .ok key =>
      match constructRateLimitImpl (p1 :: rest) with
      | .error e => .error e
      | .ok impl => .ok (key, impl)
  | _ => .error "Must at least specify operation and rate limiter type."

/-- The `for _, spec := range specs` loop of `NewGCERateLimiter`: fold the
spec list into the map, aborting with the first parse error. -/
def buildImpls : List String → RLMap → Except String RLMap
  | [], acc => .ok acc
  | spec :: rest, acc =>
    match parseSpec spec with
    | .error e => .error e
    | .ok kv => buildImpls rest (mapInsert acc kv.1 kv.2)

/-- `GCERateLimiter`: the registry. -/
structure GCERateLimiter where
  rateLimitImpls : RLMap
deriving DecidableEq

/-- `NewGCERateLimiter`: parse all specs; on success return `none` (the
nil registry) when the resulting map is empty, else the populated
registry. -/
def NewGCERateLimiter (specs : List String) : Except String (Option GCERateLimiter) :=
  match buildImpls specs [] with
  | .error e => .error e
  | .ok m => if m.length = 0 then .ok none else .ok (some ⟨m⟩)

/-- `(l *GCERateLimiter) rateLimitImpl(key)`: look up on a copy of the key
with `ProjectID` cleared. -/
def rateLimitImpl (l : GCERateLimiter) (key : RateLimitKey) : Option FCRateLimiter :=
  mapLookup l.rateLimitImpls
    { ProjectID := "", Operation := key.Operation, Version := key.Version, Service := key.Service }

/-- The two values `ctx.Err()` can take once a context is done. -/
inductive CtxErr where
  | canceled
  | deadlineExceeded
deriving DecidableEq

/-- A Go context as `Accept` observes it: whether `ctx.Done()` is closed
for the duration of the call, and which error `ctx.Err()` reports if so.
(The claims only concern contexts that are already done at call time or
never become done during the call.) -/
structure GoContext where
  done : Bool
  errIfDone : CtxErr
deriving DecidableEq

/-- What the goroutine spawned by `Accept` does. -/
inductive GoroutineResult where
  | closes
  | blocksForever
  | panics
deriving DecidableEq

/-- The body of the goroutine spawned by `Accept`, for a possibly-nil
receiver `l`.  On a nil receiver, `l.rateLimitImpl(key)` reads the field
`l.rateLimitImpls` through the nil pointer and panics before `close(ch)`.
Otherwise it looks up the limiter; a map miss skips `impl.Accept()` and
closes `ch` at once; a hit blocks on `impl.Accept()` first —
`bucketEmpty` abstracts the token-bucket state: `true` means the blocking
acquire cannot complete within the window of this call. -/
def acceptGoroutine (l : Option GCERateLimiter) (key : RateLimitKey)
    (bucketEmpty : Bool) : GoroutineResult :=
  match l with
  | none => .panics
  | some reg =>
    match rateLimitImpl reg key with
    | none => .closes
    | some _ => if bucketEmpty then .blocksForever else .closes

/-- Resolution of the two races Go leaves open in `Accept`:
whether the goroutine reaches `close(ch)` before the `select` polls its
cases, and which case the `select` commits to when both are ready
(Go picks uniformly at random). -/
structure Schedule where
  goroutineFirst : Bool
  pickCh : Bool
deriving DecidableEq

/-- Observable outcome of a call to `Accept`: returns nil, returns
`ctx.Err()`, is still blocked in the `select`, or the process dies from
the unrecovered panic in the spawned goroutine. -/
inductive AcceptOutcome where
  | ok
  | ctxErr (e : CtxErr)
  | blocked
  | panics
deriving DecidableEq

/-- `(l *GCERateLimiter) Accept(ctx, key)`: spawn the goroutine, then
`select` between `<-ch` and `<-ctx.Done()`.
With a goroutine that closes `ch`: if the context is not done only the
`ch` case can fire, giving nil; if it is done, the `ctx.Done()` case is
ready immediately and wins unless the goroutine has already closed `ch`,
in which case the choice is the random pick.  With a goroutine blocked in
`impl.Accept()`, `ch` is never ready within the call.  With a panicking
goroutine, `Accept` can only return (with `ctx.Err()`) if the context is
done and the `select` commits before the panic kills the process. -/
def Accept (l : Option GCERateLimiter) (ctx : GoContext) (key : RateLimitKey)
    (bucketEmpty : Bool) (sched : Schedule) : AcceptOutcome :=
  match acceptGoroutine l key bucketEmpty with
  | .closes =>
    if ctx.done then
      if sched.goroutineFirst then
        if sched.pickCh then .ok else .ctxErr ctx.errIfDone
      else .ctxErr ctx.errIfDone
    else .ok
  | .blocksForever =>
    if ctx.done then .ctxErr ctx.errIfDone else .blocked
  | .panics =>
    if ctx.done ∧ ¬sched.goroutineFirst then .ctxErr ctx.errIfDone else .panics

/-- The key/limiter pairs that the specs parse to, in input order
(reference function for stating overwrite behaviour). -/
def parsedEntries (specs : List String) : List (RateLimitKey × FCRateLimiter) :=
  specs.filterMap fun s => (parseSpec s).toOption

/-- The keys the specs parse to, in input order. -/
def parsedKeys (specs : List String) : List RateLimitKey :=
  (parsedEntries specs).map Prod.fst

/-- Last binding for `k` in an entry list, starting from `acc`. -/
def lastAux (k : RateLimitKey) (acc : Option FCRateLimiter) :
    List (RateLimitKey × FCRateLimiter) → Option FCRateLimiter
  | [] => acc
  | kv :: t => lastAux k (if kv.1 = k then some kv.2 else acc) t

/-- The limiter the *last* spec naming key `k` constructs, if any: the
spec-side description of "a later duplicate key overwrites an earlier
one". -/
def lastBinding (specs : List String) (k : RateLimitKey) : Option FCRateLimiter :=
  lastAux k none (parsedEntries specs)

/-- The key-to-limiter mapping of a possibly-absent registry. -/
def registryMapping (o : Option GCERateLimiter) (k : RateLimitKey) : Option FCRateLimiter :=
  match o with
  | none => none
  | some r => mapLookup r.rateLimitImpls k

/-! ### Helper lemmas on the map model and the reference functions -/

theorem mapLookup_insert (m : RLMap) (k : RateLimitKey) (v : FCRateLimiter)
    (j : RateLimitKey) :
    mapLookup (mapInsert m k v) j = if k = j then some v else mapLookup m j := by
  induction m with
  | nil => by_cases h : k = j <;> simp [mapInsert, mapLookup, h]
  | cons hd tl ih =>
    obtain ⟨k0, v0⟩ := hd
    simp only [mapInsert]
    by_cases h0 : k0 = k
    · subst h0
      rw [if_pos rfl]
      simp only [mapLookup]
      by_cases hj : k0 = j <;> simp [hj]
    · rw [if_neg h0]
      simp only [mapLookup]
      by_cases hj : k0 = j
      · subst hj
        rw [if_pos rfl, if_neg (fun he => h0 he.symm), if_pos rfl]
      · rw [if_neg hj, ih, if_neg hj]

theorem mem_mapKeys_insert (m : RLMap) (k : RateLimitKey) (v : FCRateLimiter)
    (j : RateLimitKey) :
    j ∈ mapKeys (mapInsert m k v) ↔ j ∈ mapKeys m ∨ j = k := by
  induction m with
  | nil => simp [mapInsert, mapKeys]
  | cons hd tl ih =>
    obtain ⟨k0, v0⟩ := hd
    simp only [mapInsert]
    by_cases h0 : k0 = k
    · subst h0
      rw [if_pos rfl]
      simp only [mapKeys, List.map_cons, List.mem_cons]
      tauto
    · rw [if_neg h0]
      simp only [mapKeys, List.map_cons, List.mem_cons] at *
      tauto

theorem nodup_mapKeys_insert (m : RLMap) (k : RateLimitKey) (v : FCRateLimiter)
    (h : (mapKeys m).Nodup) : (mapKeys (mapInsert m k v)).Nodup := by
  induction m with
  | nil => simp [mapInsert, mapKeys]
  | cons hd tl ih =>
    obtain ⟨k0, v0⟩ := hd
    simp only [mapKeys, List.map_cons, List.nodup_cons] at h
    obtain ⟨hnm, hnd⟩ := h
    simp only [mapInsert]
    by_cases h0 : k0 = k
    · subst h0
      rw [if_pos rfl]
      simp only [mapKeys, List.map_cons, List.nodup_cons]
      exact ⟨hnm, hnd⟩
    · rw [if_neg h0]
      simp only [mapKeys, List.map_cons, List.nodup_cons]
      refine ⟨fun hmem => ?_, ih hnd⟩
      rcases (mem_mapKeys_insert tl k v k0).mp hmem with h1 | h1
      · exact hnm h1
      · exact h0 h1

theorem lastAux_of_not_mem (k : RateLimitKey) (acc : Option FCRateLimiter)
    (l : List (RateLimitKey × FCRateLimiter)) (h : k ∉ l.map Prod.fst) :
    lastAux k acc l = acc := by
  induction l generalizing acc with
  | nil => rfl
  | cons kv t ih =>
    simp only [List.map_cons, List.mem_cons, not_or] at h
    simp only [lastAux]
    rw [if_neg (fun he => h.1 he.symm)]
    exact ih acc h.2

theorem lastAux_isSome_of_acc (k : RateLimitKey) (w : FCRateLimiter)
    (l : List (RateLimitKey × FCRateLimiter)) :
    (lastAux k (some w) l).isSome = true := by
  induction l generalizing w with
  | nil => rfl
  | cons kv t ih =>
    simp only [lastAux]
    by_cases h : kv.1 = k
    · rw [if_pos h]; exact ih kv.2
    · rw [if_neg h]; exact ih w

theorem lastAux_isSome_of_mem (k : RateLimitKey) (acc : Option FCRateLimiter)
    (l : List (RateLimitKey × FCRateLimiter)) (h : k ∈ l.map Prod.fst) :
    (lastAux k acc l).isSome = true := by
  induction l generalizing acc with
  | nil => simp at h
  | cons kv t ih =>
    simp only [lastAux]
    by_cases h1 : kv.1 = k
    · rw [if_pos h1]; exact lastAux_isSome_of_acc k kv.2 t
    · rw [if_neg h1]
      apply ih
      simp only [List.map_cons, List.mem_cons] at h
      rcases h with h | h
      · exact absurd h.symm h1
      · exact h

theorem lastAux_some_mem_or (k : RateLimitKey) (w v : FCRateLimiter)
    (l : List (RateLimitKey × FCRateLimiter)) (h : lastAux k (some w) l = some v) :
    v = w ∨ (k, v) ∈ l := by
  induction l generalizing w with
  | nil => exact Or.inl (Option.some.inj h).symm
  | cons kv t ih =>
    simp only [lastAux] at h
    by_cases h1 : kv.1 = k
    · rw [if_pos h1] at h
      rcases ih kv.2 h with h2 | h2
      · refine Or.inr (List.mem_cons.mpr (Or.inl ?_))
        rw [h2, ← h1]
      · exact Or.inr (List.mem_cons_of_mem _ h2)
    · rw [if_neg h1] at h
      rcases ih w h with h2 | h2
      · exact Or.inl h2
      · exact Or.inr (List.mem_cons_of_mem _ h2)

theorem lastAux_none_some_mem (k : RateLimitKey) (v : FCRateLimiter)
    (l : List (RateLimitKey × FCRateLimiter)) (h : lastAux k none l = some v) :
    (k, v) ∈ l := by
  induction l with
  | nil => simp [lastAux] at h
  | cons kv t ih =>
    simp only [lastAux] at h
    by_cases h1 : kv.1 = k
    · rw [if_pos h1] at h
      rcases lastAux_some_mem_or k kv.2 v t h with h2 | h2
      · refine List.mem_cons.mpr (Or.inl ?_)
        rw [h2, ← h1]
      · exact List.mem_cons_of_mem _ h2
    · rw [if_neg h1] at h
      exact List.mem_cons_of_mem _ (ih h)

theorem lastAux_eq_some_of_mem_nodup (k : RateLimitKey) (v : FCRateLimiter)
    (l : List (RateLimitKey × FCRateLimiter)) (hnd : (l.map Prod.fst).Nodup)
    (hm : (k, v) ∈ l) (acc : Option FCRateLimiter) : lastAux k acc l = some v := by
  induction l generalizing acc with
  | nil => simp at hm
  | cons kv t ih =>
    simp only [List.map_cons, List.nodup_cons] at hnd
    obtain ⟨hk0, hndt⟩ := hnd
    simp only [lastAux]
    rcases List.mem_cons.mp hm with he | ht
    · have h1 : kv.1 = k := by rw [← he]
      have h2 : kv.2 = v := by rw [← he]
      rw [if_pos h1]
      have hnmem : k ∉ t.map Prod.fst := by rw [← h1]; exact hk0
      rw [lastAux_of_not_mem k _ t hnmem, h2]
    · have h1 : kv.1 ≠ k := by
        intro he
        apply hk0
        rw [he]
        exact List.mem_map_of_mem Prod.fst ht
      rw [if_neg h1]
      exact ih hndt ht acc

theorem buildImpls_ok (specs : List String) (acc : RLMap)
    (hwf : ∀ s ∈ specs, (parseSpec s).isOk = true) :
    ∃ m, buildImpls specs acc = .ok m ∧
      (∀ k, mapLookup m k = lastAux k (mapLookup acc k) (parsedEntries specs)) ∧
      ((mapKeys acc).Nodup → (mapKeys m).Nodup) := by
  induction specs generalizing acc with
  | nil => exact ⟨acc, rfl, fun k => rfl, fun h => h⟩
  | cons s rest ih =>
    have hs := hwf s (List.mem_cons_self s rest)
    match hps : parseSpec s with
    | .error e => rw [hps] at hs; simp [Except.isOk, Except.toBool] at hs
    | .ok kv =>
      have hrest : ∀ t ∈ rest, (parseSpec t).isOk = true :=
        fun t ht => hwf t (List.mem_cons_of_mem _ ht)
      obtain ⟨m, hm, hlook, hnd⟩ := ih (mapInsert acc kv.1 kv.2) hrest
      refine ⟨m, ?_, ?_, ?_⟩
      · simpa [buildImpls, hps] using hm
      · intro k
        rw [hlook k]
        have hpe : parsedEntries (s :: rest) = kv :: parsedEntries rest := by
          simp [parsedEntries, hps, Except.toOption]
        rw [hpe]
        simp only [lastAux]
        rw [mapLookup_insert]
      · intro hacc
        exact hnd (nodup_mapKeys_insert acc kv.1 kv.2 hacc)

theorem parsedEntries_fst_mem (s : String) (rest : List String)
    (kv : RateLimitKey × FCRateLimiter) (hps : parseSpec s = .ok kv) :
    kv.1 ∈ (parsedEntries (s :: rest)).map Prod.fst := by
  have hpe : parsedEntries (s :: rest) = kv :: parsedEntries rest := by
    simp [parsedEntries, hps, Except.toOption]
  rw [hpe]
  exact List.mem_cons_self _ _

theorem newGCERateLimiter_wf_aux (specs : List String) (hne : specs ≠ [])
    (hwf : ∀ s ∈ specs, (parseSpec s).isOk = true) :
    ∃ r, NewGCERateLimiter specs = .ok (some r) ∧
      (mapKeys r.rateLimitImpls).Nodup ∧
      ∀ k, mapLookup r.rateLimitImpls k = lastBinding specs k := by
  obtain ⟨m, hm, hlook, hnd⟩ := buildImpls_ok specs [] hwf
  have hlook0 : ∀ k, mapLookup m k = lastBinding specs k := fun k => hlook k
  obtain ⟨s, rest, rfl⟩ : ∃ s rest, specs = s :: rest := by
    cases specs with
    | nil => exact absurd rfl hne
    | cons a b => exact ⟨a, b, rfl⟩
  have hs := hwf s (List.mem_cons_self s rest)
  match hps : parseSpec s with
  | .error e => rw [hps] at hs; simp [Except.isOk, Except.toBool] at hs
  | .ok kv =>
    have hsome : (lastBinding (s :: rest) kv.1).isSome = true :=
      lastAux_isSome_of_mem kv.1 none _ (parsedEntries_fst_mem s rest kv hps)
    have hm_ne : m ≠ [] := by
      intro h
      have hx := hlook0 kv.1
      rw [h] at hx
      rw [show mapLookup [] kv.1 = none from rfl] at hx
      rw [← hx] at hsome
      simp at hsome
    refine ⟨⟨m⟩, ?_, hnd (by simp [mapKeys]), hlook0⟩
    have hlen : ¬ m.length = 0 := fun h => hm_ne (List.length_eq_zero.mp h)
    simp [NewGCERateLimiter, hm, hlen]

example : (parseSpec "ga.Addresses.Get,qps,1.5,5").toOption =
    some (⟨"", "Get", "ga", "Addresses"⟩, ⟨GoFloat.finite (mkRat 3 2), 5⟩) := by decide
example : (parseSpec "gaAddresses.Get,qps,1.5,5").isOk = false := by decide
example : (parseSpec "ga.Addresses.Get,qps,0,5").isOk = false := by decide
example : (parseSpec "ga.Addresses.Get,qps,-1,5").isOk = false := by decide
example : (parseSpec "ga.Addresses.Get,qps,1.5.5").isOk = false := by decide
example : (parseSpec "ga.Addresses.Get,qps,1.5,5.5").isOk = false := by decide
example : (parseSpec "ga.Addresses.Get,foo,1.5,5").isOk = false := by decide
example : (parseSpec "ga.Addresses.Get,1.5,5").isOk = false := by decide
example : (parseSpec "ga.Operations.Get,qps,10,100").isOk = true := by decide
example : ParseFloat32 "2e3" = some (GoFloat.finite (mkRat 2000 1)) := by decide
example : ParseFloat32 "1e-2" = some (GoFloat.finite (mkRat 5368709 536870912)) := by decide
example : ParseFloat32 "1e39" = none := by decide
example : ParseFloat32 "-1e39" = none := by decide
example : ParseFloat32 "1e-46" = some (GoFloat.finite 0) := by decide
example : ParseFloat32 "inf" = some (GoFloat.inf false) := by decide
example : ParseFloat32 "-Inf" = some (GoFloat.inf true) := by decide
example : ParseFloat32 "infinity" = some (GoFloat.inf false) := by decide
example : ParseFloat32 "nan" = some GoFloat.nan := by decide
example : ParseFloat32 "-nan" = none := by decide
example : (parseSpec "ga.Addresses.Get,qps,1e39,5").isOk = false := by decide
example : (parseSpec "ga.Addresses.Get,qps,1e-46,5").isOk = false := by decide
example : (parseSpec "ga.Addresses.Get,qps,inf,5").isOk = true := by decide
example : (parseSpec "ga.Addresses.Get,qps,nan,5").isOk = true := by decide
example : Atoi "-7" = some (-7) := by decide
example : Atoi "5.5" = none := by decide

/-! ### Concrete objects used by witnesses and counterexamples -/

/-- A valid spec list taken from the repository's tests. -/
def sampleSpecs : List String := ["ga.Addresses.Get,qps,1.5,5"]

/-- The selection key parsed from `sampleSpecs` (empty `ProjectID`). -/
def sampleKey : RateLimitKey := ⟨"", "Get", "ga", "Addresses"⟩

/-- The registry built from `sampleSpecs`. -/
def sampleRegistry : GCERateLimiter := ⟨[(sampleKey, ⟨GoFloat.finite (mkRat 3 2), 5⟩)]⟩

/-- A lookup key (caller project filled in) with no configured limiter. -/
def missKey : RateLimitKey := ⟨"my-project", "Op", "v1", "Other"⟩

/-- A lookup key (caller project filled in) for the configured operation. -/
def hitKey : RateLimitKey := ⟨"my-project", "Get", "ga", "Addresses"⟩

example : NewGCERateLimiter sampleSpecs = .ok (some sampleRegistry) := rfl
example : rateLimitImpl sampleRegistry missKey = none := rfl
example : rateLimitImpl sampleRegistry hitKey = some ⟨GoFloat.finite (mkRat 3 2), 5⟩ := rfl

/-! ### Claims -/

/-- Claim C2 (confirmed): for a key with a configured limiter whose bucket
cannot immediately yield a token (`bucketEmpty = true`, so the goroutine
stays blocked in `impl.Accept()` and `ch` is never ready), a context that
is already done makes `Accept` return that context's error — carrying the
context's own cancellation-vs-deadline distinction — under every schedule,
without waiting for the in-flight acquisition. -/
theorem claim2_main (reg : GCERateLimiter) (ctx : GoContext) (key : RateLimitKey)
    (impl : FCRateLimiter) (sched : Schedule)
    (hfound : rateLimitImpl reg key = some impl) (hdone : ctx.done = true) :
    Accept (some reg) ctx key true sched = .ctxErr ctx.errIfDone := by
  have hg : acceptGoroutine (some reg) key true = .blocksForever := by
    simp [acceptGoroutine, hfound]
  unfold Accept
  rw [hg]
  simp [hdone]

/-- Witness for C2 at the test configuration, with a deadline-expired
context: the returned error is the context's `deadlineExceeded`. -/
theorem claim2_witness :
    rateLimitImpl sampleRegistry hitKey = some ⟨GoFloat.finite (mkRat 3 2), 5⟩ ∧
    (⟨true, CtxErr.deadlineExceeded⟩ : GoContext).done = true ∧
    Accept (some sampleRegistry) ⟨true, CtxErr.deadlineExceeded⟩ hitKey true ⟨true, true⟩ =
      .ctxErr CtxErr.deadlineExceeded :=
  ⟨rfl, rfl,
    claim2_main sampleRegistry ⟨true, CtxErr.deadlineExceeded⟩ hitKey
      ⟨GoFloat.finite (mkRat 3 2), 5⟩ ⟨true, true⟩ rfl rfl⟩

/-- Claim C3 (confirmed): limiter selection ignores the caller-identity
field: two lookup keys agreeing on version, service and operation resolve
to the same limiter, because `rateLimitImpl` looks up a copy of the key
with `ProjectID` cleared. -/
theorem claim3_main (reg : GCERateLimiter) (k1 k2 : RateLimitKey)
    (hv : k1.Version = k2.Version) (hs : k1.Service = k2.Service)
    (ho : k1.Operation = k2.Operation) :
    rateLimitImpl reg k1 = rateLimitImpl reg k2 := by
  unfold rateLimitImpl
  rw [hv, hs, ho]

/-- Witness for C3: two keys differing only in `ProjectID` resolve to the
same limiter in the sample registry. -/
theorem claim3_witness :
    (hitKey.Version = (⟨"other-project", "Get", "ga", "Addresses"⟩ : RateLimitKey).Version ∧
      hitKey.Service = (⟨"other-project", "Get", "ga", "Addresses"⟩ : RateLimitKey).Service ∧
      hitKey.Operation = (⟨"other-project", "Get", "ga", "Addresses"⟩ : RateLimitKey).Operation) ∧
    rateLimitImpl sampleRegistry hitKey =
      rateLimitImpl sampleRegistry ⟨"other-project", "Get", "ga", "Addresses"⟩ :=
  ⟨⟨rfl, rfl, rfl⟩,
    claim3_main sampleRegistry hitKey ⟨"other-project", "Get", "ga", "Addresses"⟩ rfl rfl rfl⟩

/-- Claim C5 counterexample: the claim predicts a configuration error
whenever the parsed rate is not strictly greater than zero, but the code
only checks Go's `qps <= 0`, which is false for NaN: the rate "nan"
parses with a nil error to a value that is not strictly greater than
zero, yet construction succeeds.  (Likewise "inf", which is not a real
number, is accepted.) -/
theorem claim5_counterexample :
    ParseFloat32 "nan" = some GoFloat.nan ∧
    goFloatGt0 GoFloat.nan = false ∧
    constructRateLimitImpl ["qps", "nan", "5"] =
      .ok (NewTokenBucketRateLimiter GoFloat.nan 5) ∧
    ParseFloat32 "inf" = some (GoFloat.inf false) ∧
    constructRateLimitImpl ["qps", "inf", "5"] =
      .ok (NewTokenBucketRateLimiter (GoFloat.inf false) 5) :=
  ⟨rfl, rfl, rfl, rfl, rfl⟩

/-- Claim C5 (amended): for a qps spec with exactly two trailing
parameters, construction fails whenever `ParseFloat(rate, 32)` returns a
non-nil error (syntax error, or overflow past the largest finite float32)
or the parsed value satisfies Go's `qps <= 0` — which holds for
non-positive finite values, for positive decimals that round to float32
zero, and for -Inf, but not for NaN or +Inf, so those two are accepted;
construction succeeds for every parse result with `qps <= 0` false,
given an integer burst, passing the parsed value to the token-bucket
constructor. -/
theorem claim5_main (a0 a1 : String) :
    (ParseFloat32 a0 = none → ∃ e, constructRateLimitImpl ["qps", a0, a1] = .error e) ∧
    (∀ v, ParseFloat32 a0 = some v → goFloatLe0 v = true →
      ∃ e, constructRateLimitImpl ["qps", a0, a1] = .error e) ∧
    (∀ v (n : ℤ), ParseFloat32 a0 = some v → goFloatLe0 v = false → Atoi a1 = some n →
      constructRateLimitImpl ["qps", a0, a1] = .ok (NewTokenBucketRateLimiter v n)) := by
  refine ⟨fun hp => ?_, fun v hv hle => ?_, fun v n hv hle hn => ?_⟩
  · exact ⟨"Invalid argument for rate limiter type qps. Either " ++ a0 ++
      " is not a float or not greater than 0.", by simp [constructRateLimitImpl, hp]⟩
  · exact ⟨"Invalid argument for rate limiter type qps. Either " ++ a0 ++
      " is not a float or not greater than 0.", by simp [constructRateLimitImpl, hv, hle]⟩
  · simp [constructRateLimitImpl, hv, hle, hn]

/-- Witness for C5 (amended): the overflowing rate "1e39" is rejected
(ErrRange), rate "0" and the underflowing rate "1e-46" (float32 zero)
are rejected by the `qps <= 0` check, and rate "1.5" with burst "5" is
accepted. -/
theorem claim5_witness :
    (ParseFloat32 "1e39" = none ∧
      ∃ e, constructRateLimitImpl ["qps", "1e39", "5"] = .error e) ∧
    (ParseFloat32 "0" = some (GoFloat.finite 0) ∧ goFloatLe0 (GoFloat.finite 0) = true ∧
      ∃ e, constructRateLimitImpl ["qps", "0", "5"] = .error e) ∧
    (ParseFloat32 "1e-46" = some (GoFloat.finite 0) ∧
      ∃ e, constructRateLimitImpl ["qps", "1e-46", "5"] = .error e) ∧
    (ParseFloat32 "1.5" = some (GoFloat.finite (mkRat 3 2)) ∧
      goFloatLe0 (GoFloat.finite (mkRat 3 2)) = false ∧ Atoi "5" = some 5 ∧
      constructRateLimitImpl ["qps", "1.5", "5"] =
        .ok (NewTokenBucketRateLimiter (GoFloat.finite (mkRat 3 2)) 5)) :=
  ⟨⟨by decide, (claim5_main "1e39" "5").1 (by decide)⟩,
   ⟨by decide, by decide, (claim5_main "0" "5").2.1 (GoFloat.finite 0) (by decide) (by decide)⟩,
   ⟨by decide, (claim5_main "1e-46" "5").2.1 (GoFloat.finite 0) (by decide) (by decide)⟩,
   ⟨by decide, by decide, by decide,
     (claim5_main "1.5" "5").2.2 (GoFloat.finite (mkRat 3 2)) 5 (by decide) (by decide)
       (by decide)⟩⟩

/-- Claim C6 (confirmed): with a rate the program accepts (parsed with a
nil error and failing Go's `qps <= 0` check, e.g. any strictly positive
rate), any burst string that parses as an integer — zero and negative
included — is accepted and its value passed through unchanged to the
token-bucket constructor, while a burst string that does not parse as an
integer fails construction. -/
theorem claim6_main (a0 a1 : String) (v : GoFloat)
    (hq : ParseFloat32 a0 = some v) (hqpos : goFloatLe0 v = false) :
    (∀ n : ℤ, Atoi a1 = some n →
      constructRateLimitImpl ["qps", a0, a1] = .ok (NewTokenBucketRateLimiter v n)) ∧
    (Atoi a1 = none → ∃ e, constructRateLimitImpl ["qps", a0, a1] = .error e) := by
  constructor
  · intro n hn
    simp [constructRateLimitImpl, hq, hn, hqpos]
  · intro hn
    exact ⟨"Invalid argument for rate limiter type qps. Expected " ++ a1 ++
      " to be a int.", by simp [constructRateLimitImpl, hq, hn, hqpos]⟩

/-- Witness for C6: burst "-3" and burst "0" are accepted and passed
through; burst "5.5" is rejected. -/
theorem claim6_witness :
    (ParseFloat32 "1.5" = some (GoFloat.finite (mkRat 3 2)) ∧
      goFloatLe0 (GoFloat.finite (mkRat 3 2)) = false) ∧
    (Atoi "-3" = some (-3) ∧ constructRateLimitImpl ["qps", "1.5", "-3"] =
      .ok (NewTokenBucketRateLimiter (GoFloat.finite (mkRat 3 2)) (-3))) ∧
    (Atoi "0" = some 0 ∧ constructRateLimitImpl ["qps", "1.5", "0"] =
      .ok (NewTokenBucketRateLimiter (GoFloat.finite (mkRat 3 2)) 0)) ∧
    (Atoi "5.5" = none ∧ ∃ e, constructRateLimitImpl ["qps", "1.5", "5.5"] = .error e) :=
  ⟨⟨by decide, by decide⟩,
   ⟨by decide, (claim6_main "1.5" "-3" (GoFloat.finite (mkRat 3 2)) (by decide)
      (by decide)).1 (-3) (by decide)⟩,
   ⟨by decide, (claim6_main "1.5" "0" (GoFloat.finite (mkRat 3 2)) (by decide)
      (by decide)).1 0 (by decide)⟩,
   ⟨by decide, (claim6_main "1.5" "5.5" (GoFloat.finite (mkRat 3 2)) (by decide)
      (by decide)).2 (by decide)⟩⟩

/-- Claim C8 (confirmed): the empty spec list yields a nil error together
with an absent (nil) registry, not an error and not a present registry
with an empty map. -/
theorem claim8_main : NewGCERateLimiter [] = .ok none := rfl

/-- Claim C10 (confirmed): `Accept` does not itself handle the
absent-registry case.  `NewGCERateLimiter []` returns the nil registry,
and invoking `Accept` on that nil receiver makes the spawned goroutine
dereference the nil receiver's map field — a runtime panic — for every
context, key, bucket state and schedule; the call never returns nil (the
only alternative to the panic outcome is the context's error, when the
context is already done and the select commits first). -/
theorem claim10_main :
    NewGCERateLimiter [] = .ok none ∧
    ∀ (ctx : GoContext) (key : RateLimitKey) (bucketEmpty : Bool) (sched : Schedule),
      acceptGoroutine none key bucketEmpty = .panics ∧
      Accept none ctx key bucketEmpty sched ≠ .ok ∧
      (Accept none ctx key bucketEmpty sched = .panics ∨
        Accept none ctx key bucketEmpty sched = .ctxErr ctx.errIfDone) := by
  refine ⟨rfl, fun ctx key b sched => ⟨rfl, ?_, ?_⟩⟩
  · unfold Accept
    cases hd : ctx.done <;> cases hg : sched.goroutineFirst <;>
      simp [acceptGoroutine, hd, hg]
  · unfold Accept
    cases hd : ctx.done <;> cases hg : sched.goroutineFirst <;>
      simp [acceptGoroutine, hd, hg]

/-- Witness for C10 at a concrete fresh (not-done) context: the call's
outcome is the goroutine panic, not a nil return. -/
theorem claim10_witness :
    acceptGoroutine none missKey false = .panics ∧
    Accept none ⟨false, CtxErr.canceled⟩ missKey false ⟨true, true⟩ ≠ .ok ∧
    Accept none ⟨false, CtxErr.canceled⟩ missKey false ⟨true, true⟩ = .panics :=
  ⟨(claim10_main.2 ⟨false, CtxErr.canceled⟩ missKey false ⟨true, true⟩).1,
   (claim10_main.2 ⟨false, CtxErr.canceled⟩ missKey false ⟨true, true⟩).2.1,
   rfl⟩

/-- Claim C1 counterexample: "Accept returns nil for an unconfigured key
regardless of the state of the supplied context" is false at a concrete
input.  On the registry built from the test spec, with a key that has no
configured limiter and an already-cancelled context, the schedule in
which the select polls before the spawned goroutine has reached
`close(ch)` makes `Accept` return the context's cancellation error, not
nil. -/
theorem claim1_counterexample :
    NewGCERateLimiter sampleSpecs = .ok (some sampleRegistry) ∧
    rateLimitImpl sampleRegistry missKey = none ∧
    Accept (some sampleRegistry) ⟨true, CtxErr.canceled⟩ missKey false ⟨false, false⟩ =
      .ctxErr CtxErr.canceled ∧
    AcceptOutcome.ctxErr CtxErr.canceled ≠ AcceptOutcome.ok :=
  ⟨rfl, rfl, rfl, by decide⟩

/-- Claim C1 (amended): for a lookup key with no configured limiter on a
present (non-nil) registry, `Accept` never blocks on a limiter and never
panics: it returns nil whenever the context is not already done, and
with an already-done context it returns either nil or the context's
error, depending on the race between the goroutine's `close(ch)` and the
select.  (The original claim also covered the nil registry, which
panics instead — see C10 — and promised nil even for already-done
contexts, which `claim1_counterexample` refutes.) -/
theorem claim1_main (reg : GCERateLimiter) (ctx : GoContext) (key : RateLimitKey)
    (bucketEmpty : Bool) (sched : Schedule)
    (hmiss : rateLimitImpl reg key = none) :
    (ctx.done = false → Accept (some reg) ctx key bucketEmpty sched = .ok) ∧
    (Accept (some reg) ctx key bucketEmpty sched = .ok ∨
      Accept (some reg) ctx key bucketEmpty sched = .ctxErr ctx.errIfDone) := by
  have hg : acceptGoroutine (some reg) key bucketEmpty = .closes := by
    simp [acceptGoroutine, hmiss]
  unfold Accept
  rw [hg]
  constructor
  · intro hd
    simp [hd]
  · cases hd : ctx.done <;> cases h1 : sched.goroutineFirst <;>
      cases h2 : sched.pickCh <;> simp [hd, h1, h2]

/-- Witness for C1 (amended) at a concrete unconfigured key and a fresh,
not-done context. -/
theorem claim1_witness :
    rateLimitImpl sampleRegistry missKey = none ∧
    ((⟨false, CtxErr.canceled⟩ : GoContext).done = false →
      Accept (some sampleRegistry) ⟨false, CtxErr.canceled⟩ missKey false ⟨true, true⟩ = .ok) ∧
    (Accept (some sampleRegistry) ⟨false, CtxErr.canceled⟩ missKey false ⟨true, true⟩ = .ok ∨
      Accept (some sampleRegistry) ⟨false, CtxErr.canceled⟩ missKey false ⟨true, true⟩ =
        .ctxErr CtxErr.canceled) :=
  ⟨rfl,
   (claim1_main sampleRegistry ⟨false, CtxErr.canceled⟩ missKey false ⟨true, true⟩ rfl).1,
   (claim1_main sampleRegistry ⟨false, CtxErr.canceled⟩ missKey false ⟨true, true⟩ rfl).2⟩

/-- Claim C4 (confirmed): for a non-empty list of well-formed specs,
construction succeeds with a present registry whose map has exactly one
binding per distinct key (a duplicate-free key list), and the limiter
bound to each key is the one built from the *last* spec naming that key:
a later duplicate overwrites an earlier one. -/
theorem claim4_main (specs : List String) (hne : specs ≠ [])
    (hwf : ∀ s ∈ specs, (parseSpec s).isOk = true) :
    ∃ r, NewGCERateLimiter specs = .ok (some r) ∧
      (mapKeys r.rateLimitImpls).Nodup ∧
      ∀ k, mapLookup r.rateLimitImpls k = lastBinding specs k :=
  newGCERateLimiter_wf_aux specs hne hwf

/-- The duplicate-key scenario from the spec: two qps specs for the same
key, parameterized (1.5, 5) then (3, 10). -/
def dupSpecs : List String := ["ga.Addresses.Get,qps,1.5,5", "ga.Addresses.Get,qps,3,10"]

/-- Witness for C4 on `dupSpecs`: construction succeeds and the single
binding for the duplicated key carries the later parameters (3, 10). -/
theorem claim4_witness :
    dupSpecs ≠ [] ∧ (∀ s ∈ dupSpecs, (parseSpec s).isOk = true) ∧
    lastBinding dupSpecs sampleKey =
      some (NewTokenBucketRateLimiter (GoFloat.finite (mkRat 3 1)) 10) ∧
    ∃ r, NewGCERateLimiter dupSpecs = .ok (some r) ∧
      (mapKeys r.rateLimitImpls).Nodup ∧
      ∀ k, mapLookup r.rateLimitImpls k = lastBinding dupSpecs k :=
  ⟨by decide, by decide, by decide, claim4_main dupSpecs (by decide) (by decide)⟩

theorem buildImpls_first_error (bad : String) (rest : List String) (e : String)
    (hbad : parseSpec bad = .error e) :
    ∀ good : List String, (∀ s ∈ good, (parseSpec s).isOk = true) →
      ∀ acc, buildImpls (good ++ bad :: rest) acc = .error e := by
  intro good
  induction good with
  | nil =>
    intro _ acc
    simp [buildImpls, hbad]
  | cons s t ih =>
    intro hgood acc
    have hs := hgood s (List.mem_cons_self s t)
    match hps : parseSpec s with
    | .error e2 => rw [hps] at hs; simp [Except.isOk, Except.toBool] at hs
    | .ok kv =>
      have hstep : buildImpls ((s :: t) ++ bad :: rest) acc =
          buildImpls (t ++ bad :: rest) (mapInsert acc kv.1 kv.2) := by
        simp [buildImpls, hps]
      rw [hstep]
      exact ih (fun x hx => hgood x (List.mem_cons_of_mem _ hx)) _

/-- Claim C7 (confirmed): construction is all-or-nothing with the first
error winning: whenever the input consists of well-formed specs followed
by a malformed one and then anything at all, `NewGCERateLimiter` returns
exactly the parse error of that first malformed entry, and no registry. -/
theorem claim7_main (good : List String) (bad : String) (rest : List String)
    (e : String) (hgood : ∀ s ∈ good, (parseSpec s).isOk = true)
    (hbad : parseSpec bad = .error e) :
    NewGCERateLimiter (good ++ bad :: rest) = .error e := by
  have h := buildImpls_first_error bad rest e hbad good hgood []
  simp [NewGCERateLimiter, h]

/-- Witness for C7 on a test input: a valid spec, then a spec with a
malformed key, then a further malformed spec; the reported error is the
key-format error of the first malformed entry. -/
theorem claim7_witness :
    (∀ s ∈ ["ga.Addresses.Get,qps,1.5,5"], (parseSpec s).isOk = true) ∧
    parseSpec "gaFirewalls.Get,qps,1.5,5" =
      .error "Must specify rate limit in [version].[service].[operation] format: gaFirewalls.Get" ∧
    NewGCERateLimiter
        (["ga.Addresses.Get,qps,1.5,5"] ++ "gaFirewalls.Get,qps,1.5,5" :: ["ga.Addresses.Get,foo,1,1"]) =
      .error "Must specify rate limit in [version].[service].[operation] format: gaFirewalls.Get" :=
  ⟨by decide, rfl,
    claim7_main ["ga.Addresses.Get,qps,1.5,5"] "gaFirewalls.Get,qps,1.5,5"
      ["ga.Addresses.Get,foo,1,1"]
      "Must specify rate limit in [version].[service].[operation] format: gaFirewalls.Get"
      (by decide) rfl⟩

/-- Claim C9 (confirmed): permuted well-formed spec lists whose keys are
pairwise distinct construct registries with identical key-to-limiter
mappings: input order does not affect the result absent duplicate keys. -/
theorem claim9_main (l1 l2 : List String) (hperm : l1.Perm l2)
    (hwf : ∀ s ∈ l1, (parseSpec s).isOk = true)
    (hnd : (parsedKeys l1).Nodup) :
    ∃ o1 o2, NewGCERateLimiter l1 = .ok o1 ∧ NewGCERateLimiter l2 = .ok o2 ∧
      ∀ k, registryMapping o1 k = registryMapping o2 k := by
  have hwf2 : ∀ s ∈ l2, (parseSpec s).isOk = true :=
    fun s hs => hwf s (hperm.mem_iff.mpr hs)
  have hpe : (parsedEntries l1).Perm (parsedEntries l2) := hperm.filterMap _
  have hpk : (parsedKeys l1).Perm (parsedKeys l2) := hpe.map _
  have hnd2 : (parsedKeys l2).Nodup := hpk.nodup_iff.mp hnd
  have hnd1m : ((parsedEntries l1).map Prod.fst).Nodup := hnd
  have hnd2m : ((parsedEntries l2).map Prod.fst).Nodup := hnd2
  have hlb : ∀ k, lastBinding l1 k = lastBinding l2 k := by
    intro k
    cases hc : lastBinding l1 k with
    | some v =>
      have hmem : (k, v) ∈ parsedEntries l1 := lastAux_none_some_mem k v _ hc
      have hmem2 : (k, v) ∈ parsedEntries l2 := hpe.mem_iff.mp hmem
      exact (lastAux_eq_some_of_mem_nodup k v _ hnd2m hmem2 none).symm
    | none =>
      cases hc2 : lastBinding l2 k with
      | none => rfl
      | some v =>
        have hmem2 : (k, v) ∈ parsedEntries l2 := lastAux_none_some_mem k v _ hc2
        have hmem : (k, v) ∈ parsedEntries l1 := hpe.mem_iff.mpr hmem2
        have hx : lastBinding l1 k = some v :=
          lastAux_eq_some_of_mem_nodup k v _ hnd1m hmem none
        rw [hc] at hx
        exact absurd hx (by simp)
  by_cases hl1 : l1 = []
  · subst hl1
    have hl2 : l2 = [] := hperm.symm.eq_nil
    subst hl2
    exact ⟨none, none, rfl, rfl, fun k => rfl⟩
  · have hl2 : l2 ≠ [] := by
      intro h
      subst h
      exact hl1 hperm.eq_nil
    obtain ⟨r1, h1, hn1, hlook1⟩ := newGCERateLimiter_wf_aux l1 hl1 hwf
    obtain ⟨r2, h2, hn2, hlook2⟩ := newGCERateLimiter_wf_aux l2 hl2 hwf2
    refine ⟨some r1, some r2, h1, h2, fun k => ?_⟩
    show mapLookup r1.rateLimitImpls k = mapLookup r2.rateLimitImpls k
    rw [hlook1 k, hlook2 k, hlb k]

/-- Two permutations of the same well-formed, duplicate-free spec list. -/
def permSpecsA : List String := ["ga.Addresses.Get,qps,1.5,5", "ga.Firewalls.Get,qps,2,10"]

/-- `permSpecsA` in the other order. -/
def permSpecsB : List String := ["ga.Firewalls.Get,qps,2,10", "ga.Addresses.Get,qps,1.5,5"]

/-- Witness for C9 on the two-element permutation. -/
theorem claim9_witness :
    permSpecsA.Perm permSpecsB ∧
    (∀ s ∈ permSpecsA, (parseSpec s).isOk = true) ∧
    (parsedKeys permSpecsA).Nodup ∧
    ∃ o1 o2, NewGCERateLimiter permSpecsA = .ok o1 ∧ NewGCERateLimiter permSpecsB = .ok o2 ∧
      ∀ k, registryMapping o1 k = registryMapping o2 k :=
  ⟨List.Perm.swap "ga.Firewalls.Get,qps,2,10" "ga.Addresses.Get,qps,1.5,5" [],
   by decide, by decide,
   claim9_main permSpecsA permSpecsB
     (List.Perm.swap "ga.Firewalls.Get,qps,2,10" "ga.Addresses.Get,qps,1.5,5" [])
     (by decide) (by decide)⟩
